import Mathlib

/-!
Shallow embedding of `src/simp.py`, the ING SIMP report fetcher/transformer.

Conventions used throughout:
* Python `float` values are modelled by the exact rational value of the
  binary64 number; every floating-point operation first computes the exact
  rational result and then applies `floatRound` (round to nearest, ties to
  even), which is the IEEE-754 semantics of CPython arithmetic in the normal
  range exercised by the program (monetary amounts).
* Strings are Lean `String`s; where the code slices Python strings we work
  on the underlying character list.
* Fallible code (uncaught `IndexError`/`KeyError`, and loops that may not
  terminate) is modelled with `Option`, `none` meaning that the Python run
  does not return a value normally.
-/

set_option maxRecDepth 100000

namespace Simp2Proof

/- Batteries hides the arithmetic of `Rat` behind `irreducible`; concrete
evaluation of the float model needs it unfolded. -/
attribute [local semireducible] Rat.mul Rat.add Rat.sub Rat.inv Rat.ofScientific

/-- Rational value of `2 ^ e` for an integer exponent. -/
def pow2 (e : ℤ) : ℚ :=
  if 0 ≤ e then (2 : ℚ) ^ e.toNat else 1 / (2 : ℚ) ^ (-e).toNat

/-- Rational value of `10 ^ e` for an integer exponent. -/
def pow10 (e : ℤ) : ℚ :=
  if 0 ≤ e then (10 : ℚ) ^ e.toNat else 1 / (10 : ℚ) ^ (-e).toNat

/-- Fuelled downward search: starting from exponent `e` with `p = b ^ e`,
find the largest exponent whose power of `b` is at most `q` (for `q > 0`). -/
def expSearchAux (b q : ℚ) : ℕ → ℤ → ℚ → ℤ
  | 0, e, _ => e
  | f + 1, e, p => if p ≤ q then e else expSearchAux b q f (e - 1) (p / b)

/-- Binary exponent of a positive rational: the `e` with `2^e ≤ q < 2^(e+1)`
(for the range of magnitudes the program manipulates). -/
def findExp (q : ℚ) : ℤ := expSearchAux 2 q 1250 100 (pow2 100)

/-- Decimal exponent of a positive rational: the `e` with `10^e ≤ q < 10^(e+1)`. -/
def findExp10 (q : ℚ) : ℤ := expSearchAux 10 q 140 60 (pow10 60)

/-- Floor of a rational as an integer. -/
def qfloor (q : ℚ) : ℤ := q.num.fdiv (q.den : ℤ)

/-- Round a rational to the nearest integer, ties to even. -/
def roundHalfEven (q : ℚ) : ℤ :=
  let f := qfloor q
  let r := q - (f : ℚ)
  if r < 1 / 2 then f
  else if 1 / 2 < r then f + 1
  else if f % 2 = 0 then f else f + 1

/-- Round a positive rational to the nearest binary64 value (53 significant
bits), returning its exact rational value. -/
def floatRoundPos (q : ℚ) : ℚ :=
  let e := findExp q
  let s := pow2 (52 - e)
  ((roundHalfEven (q * s) : ℤ) : ℚ) / s

/-- Correctly rounded binary64 value of a rational: the semantics of every
CPython float operation (parse, `+`, `*`) once the exact rational result is
known.  Models the normal range (no overflow/subnormal handling), which
covers all monetary magnitudes the program processes. -/
def floatRound (q : ℚ) : ℚ :=
  if q = 0 then 0 else if q < 0 then -(floatRoundPos (-q)) else floatRoundPos q

/-- Python `int()` applied to a float value: truncation toward zero. -/
def pyTrunc (q : ℚ) : ℤ := if 0 ≤ q then qfloor q else -(qfloor (-q))

/-- Strip trailing decimal zeros from `n`, returning the stripped number and
how many zeros were removed (fuelled). -/
def stripZerosAux : ℕ → ℕ → ℕ × ℕ
  | 0, n => (n, 0)
  | f + 1, n =>
    if n ≠ 0 ∧ n % 10 = 0 then
      let p := stripZerosAux f (n / 10)
      (p.1, p.2 + 1)
    else (n, 0)

def stripZeros (n : ℕ) : ℕ × ℕ := stripZerosAux 30 n

/-- Search for the shortest decimal significand (tried with `d = 1, 2, ...`
significant digits) whose binary64 rounding recovers the float value `v`;
returns the significand together with its power-of-ten scale.  This is the
shortest-round-trip characterization of CPython `repr(float)`. -/
def reprSearchAux (v : ℚ) (e10 : ℤ) : ℕ → ℕ → ℕ × ℤ
  | 0, _ => (0, 0)
  | f + 1, d =>
    let scaleExp := e10 - (d : ℤ) + 1
    let n := roundHalfEven (v / pow10 scaleExp)
    if floatRound ((n : ℚ) * pow10 scaleExp) = v then (n.toNat, scaleExp)
    else reprSearchAux v e10 f (d + 1)

def reprSearch (v : ℚ) (e10 : ℤ) : ℕ × ℤ := reprSearchAux v e10 18 1

/-- A run of `k` zero characters. -/
def zeroRun (k : ℕ) : String := ⟨List.replicate k '0'⟩

/-- CPython `repr`/`str` of a positive float value: shortest round-tripping
decimal, in fixed notation for decimal exponents in `[-4, 16)` and
scientific notation (two-digit, signed exponent) otherwise. -/
def pyFloatReprPos (v : ℚ) : String :=
  let e10 := findExp10 v
  let p := reprSearch v e10
  let z := stripZeros p.1
  let n := z.1
  let se : ℤ := p.2 + (z.2 : ℤ)
  let s := Nat.repr n
  let dD : ℤ := (s.length : ℤ)
  let e : ℤ := se + dD - 1
  if -4 ≤ e ∧ e < 16 then
    if dD - 1 ≤ e then s ++ zeroRun (e - (dD - 1)).toNat ++ ".0"
    else if 0 ≤ e then
      (⟨s.data.take (e.toNat + 1)⟩ : String) ++ "." ++ (⟨s.data.drop (e.toNat + 1)⟩ : String)
    else "0." ++ zeroRun ((-e).toNat - 1) ++ s
  else
    (⟨s.data.take 1⟩ : String) ++
      (if s.length > 1 then "." ++ (⟨s.data.drop 1⟩ : String) else "") ++
      "e" ++ (if e < 0 then "-" else "+") ++
      (if e.natAbs < 10 then "0" else "") ++ Nat.repr e.natAbs

/-- CPython `str`/`repr` of a float value. -/
def pyFloatRepr (v : ℚ) : String :=
  if v = 0 then "0.0" else if v < 0 then "-" ++ pyFloatReprPos (-v) else pyFloatReprPos v

/-- Python slice `s[:-1]`: all characters but the last (empty stays empty). -/
def pyDropLast (s : String) : String := ⟨s.data.dropLast⟩

/-- `String.startsWith` over the character data (Python `str.startswith`). -/
def strHasPre (s p : String) : Bool := p.data.isPrefixOf s.data

/-- `String.endsWith` over the character data (Python `str.endswith`). -/
def strHasSuf (s p : String) : Bool := p.data.isSuffixOf s.data

/-- One transaction entry `<Ntry/>` node of an itemized SOAP response, by
the xpath fields `SimpReport.ntrys2simp` reads (src/simp.py lines 282-307):
`txRef = ./Ref/TxRef/text()[0]`, `bookingDate = ./BookgDt/Dt/text()[0]`,
`txDate = ./TxDt/text()[0]`, `trnSrc = ./TrnSrc/text()[0]`,
`opSgn = ./OpSgn/text()[0]`, `acctId = ./SimpAcct/Id/text()[0]`,
`ccy = ./SimpAcct/Ccy/text()[0]`, `dbtrId = ./Dbtr/Id/text()[0]`,
`dbtrNms = the ./Dbtr/Nm nodes (text is None for an empty node, hence
`Option String`; the node itself may be missing, hence a list of arbitrary
length)`, `memo = ./MemoFld/MemoFldLn/text()[0]`, and `amount = the exact
decimal value of the ./AmtDtls/text()[0] string` (Python parses it with
`float`, modelled by `floatRound`). -/
structure Ntry where
  txRef : String
  bookingDate : String
  txDate : String
  trnSrc : String
  opSgn : String
  acctId : String
  ccy : String
  dbtrId : String
  dbtrNms : List (Option String)
  memo : String
  amount : ℚ
deriving DecidableEq

/-- `ntry.xpath('./Dbtr/Nm')[i].text or ""` guarded by `try/except
IndexError`: a missing slot or a `None` text both give `""`. -/
def payerName (n : Ntry) (i : ℕ) : String := ((n.dbtrNms.get? i).bind id).getD ""

/-- `data['cammount'] = int(float(data['ammount']) * 100)` (src/simp.py line
308): the decimal string is parsed to the nearest binary64, multiplied by
100 with binary64 rounding, and truncated toward zero by `int()`. -/
def cammount (a : ℚ) : ℤ := pyTrunc (floatRound (floatRound a * 100))

/-- The CSV line emitted for one entry (src/simp.py line 311). -/
def simpLine (n : Ntry) : String :=
  n.acctId ++ "," ++ toString (cammount n.amount) ++ "," ++ n.opSgn ++ "," ++
    n.ccy ++ "," ++ n.bookingDate ++ ",UZN," ++ pyDropLast n.txRef ++ ",,\"" ++
    n.dbtrId ++ "\",\"" ++ payerName n 0 ++ "\",\"" ++ payerName n 1 ++ "\",\"" ++
    payerName n 2 ++ "\",\"" ++ payerName n 3 ++ "\",\"" ++ n.memo ++
    "\",\"\",\"\",\"\"," ++ n.trnSrc ++ ",," ++ n.txDate ++ "\n"

/-- The mutable `data` dictionary and `lines` accumulator of the
`ntrys2simp` loop, restricted to the keys read after the loop.
`booking_date` is `none` while the key is still missing (reading it then is
a `KeyError`).  `tr_total` starts as the Python int `0` and becomes a float
after the first `+=`; every later `+=` is a correctly rounded binary64
addition. -/
structure SimpAcc where
  tr_count : ℕ
  tr_total : ℚ
  booking_date : Option String
  lines : String

/-- One iteration of the `for ntry in ntrys` loop of `ntrys2simp`. -/
def simpStep (a : SimpAcc) (n : Ntry) : SimpAcc :=
  { tr_count := a.tr_count + 1
    tr_total := floatRound (a.tr_total + floatRound n.amount)
    booking_date := some n.bookingDate
    lines := a.lines ++ simpLine n }

def ntrysFold (ns : List Ntry) : SimpAcc :=
  ns.foldl simpStep { tr_count := 0, tr_total := 0, booking_date := none, lines := "" }

/-- `SimpReport.ntrys2simp` (src/simp.py lines 267-320): header
`<SIMP2>666,<last booking date>`, one CSV line per entry, footer
`</SIMP2>"il.trn.:<count> wart.trn.:<total>"`.  On an empty entry list the
Python code raises `KeyError` at the header template (`none`). -/
def ntrys2simp (ns : List Ntry) : Option String :=
  let a := ntrysFold ns
  match a.booking_date with
  | none => none
  | some bd =>
    some ("<SIMP2>666," ++ bd ++ "\n" ++ a.lines ++
      "</SIMP2>\"il.trn.:" ++ Nat.repr a.tr_count ++ " wart.trn.:" ++
      pyFloatRepr a.tr_total ++ "\"\n")

/-- Spec-side: concatenation of the per-entry CSV lines. -/
def simpLinesSpec : List Ntry → String
  | [] => ""
  | n :: ns => simpLine n ++ simpLinesSpec ns

/-- Spec-side: the running float total of the amounts, as the loop computes
it (binary64 accumulation of the parsed amounts). -/
def simpTotal (ns : List Ntry) : ℚ :=
  ns.foldl (fun t n => floatRound (t + floatRound n.amount)) 0

/-- Spec-side `round(x)`: round half away from zero.  At every use in the
claims the argument is an exact integer, where all rounding conventions
(including Python round-half-even) agree. -/
def specRound (q : ℚ) : ℤ := qfloor (q + 1 / 2)

/-- Python `str.find`: index of the first occurrence of `c`, `-1` if absent. -/
def pyFind (c : Char) : List Char → ℤ
  | [] => -1
  | x :: xs =>
    if x = c then 0
    else
      let r := pyFind c xs
      if r = -1 then -1 else r + 1

/-- The tag rewrite of `remove_namespace` (src/simp.py lines 33-41): when
the tag starts with a brace, drop everything through the first closing
brace; `find` returning `-1` makes the slice `tag[0:]`, a no-op. -/
def stripNsTag (t : List Char) : List Char :=
  if t.take 1 = ['\x7b'] then t.drop (pyFind '\x7d' t + 1).toNat else t

/-- A parsed XML element tree: a tag plus child elements (the only parts of
the document `remove_namespace` and the xpath lookups inspect). -/
inductive XmlNode where
  | node (tag : List Char) (children : List XmlNode)

mutual

/-- `remove_namespace` (src/simp.py lines 33-41): rewrite every element tag
in the document. -/
def remove_namespace : XmlNode → XmlNode
  | .node t cs => .node (stripNsTag t) (removeNsList cs)

def removeNsList : List XmlNode → List XmlNode
  | [] => []
  | d :: ds => remove_namespace d :: removeNsList ds

end

mutual

/-- All element tag names of a document, in document order. -/
def xmlTags : XmlNode → List (List Char)
  | .node t cs => t :: xmlTagsList cs

def xmlTagsList : List XmlNode → List (List Char)
  | [] => []
  | d :: ds => xmlTags d ++ xmlTagsList ds

end

/-- Tags that can come out of an XML parse: either a plain name (no braces:
braces are not XML name characters) or the lxml form
`\x7bnamespace-uri\x7dlocalname` with a brace-free URI and local name. -/
def WfTag (t : List Char) : Prop :=
  ('\x7b' ∉ t ∧ '\x7d' ∉ t) ∨
    ∃ u n, t = '\x7b' :: (u ++ '\x7d' :: n) ∧
      '\x7b' ∉ u ∧ '\x7d' ∉ u ∧ '\x7b' ∉ n ∧ '\x7d' ∉ n

/-- The `RptDtls` portion of a RAW-format response, as
`process_report_file_xml` queries it: whether `//RptDtls` has a match, the
`./RptFile` payload (already transport-decoded: base64 plus the configured
bank text encoding), and the `./RptNm` text. -/
structure RptDtlsResp where
  present : Bool
  rptFile : Option String
  rptNm : Option String
deriving DecidableEq

/-- `SimpReport.process_report_file_xml` (src/simp.py lines 227-264).  Both
`rpt[0]` on an empty match list and a missing child node raise `IndexError`
inside the `try`, so an entirely missing `RptDtls` yields the same soft
defaults as a missing child. -/
def process_report_file_xml (date : String) (r : RptDtlsResp) : String × String :=
  let simp_report :=
    if r.present then
      match r.rptFile with
      | some t => t
      | none => ""
    else ""
  let simp_report_fn :=
    if r.present then
      match r.rptNm with
      | some n => n ++ ".txt"
      | none => "temp_file_" ++ date ++ ".txt"
    else "temp_file_" ++ date ++ ".txt"
  (simp_report, simp_report_fn)

/-- Value of a digit run (most significant first). -/
def digitsVal (ds : List Char) : ℕ :=
  ds.foldl (fun a c => 10 * a + (c.toNat - 48)) 0

/-- Try to match the regex `"il.trn.:(\d+) ` at the head of the input:
literal characters with `.` matching any character except a newline, then a
nonempty greedy digit run, then a space; returns the captured number. -/
def matchCntAt (cs : List Char) : Option ℕ :=
  match cs with
  | '"' :: 'i' :: 'l' :: c3 :: 't' :: 'r' :: 'n' :: c7 :: ':' :: rest =>
    if c3 = '\n' ∨ c7 = '\n' then none
    else
      let ds := rest.takeWhile (fun c => c.isDigit)
      let rest2 := rest.dropWhile (fun c => c.isDigit)
      if ds ≠ [] ∧ rest2.take 1 = [' '] then some (digitsVal ds) else none
  | _ => none

/-- First match of the regex in the text, scanning left to right. -/
def findCnt : List Char → Option ℕ
  | [] => none
  | c :: cs =>
    match matchCntAt (c :: cs) with
    | some n => some n
    | none => findCnt cs

/-- `re.findall('"il.trn.:(\d+) ', simp_report)` followed by
`int(trn[0])` when nonempty, else the initial `0` (src/simp.py 206-208). -/
def regexTrnCount (s : String) : ℕ := (findCnt s.data).getD 0

/-- The parts of a namespace-normalized SOAP response that
`send_soap_request`, `get_rpt_id` and `get_report` query: the
`//RuleDesc` business-error signal, the `//GetMCReportResponse/Document/
MCRpt/Rpt/RptId/EQ` text parsed as an integer (absent when the xpath has no
match, which makes the Python index/int raise), the `//Ntry` nodes, and the
`//RptDtls` part. -/
structure SoapResp where
  err : Bool
  rptId : Option ℕ
  ntrys : List Ntry
  dtls : RptDtlsResp

/-- The bank endpoint for one report date, as a deterministic oracle per
(report id, format) query.  `xmlResp i` is the response to the
`rpt_format='XML'` query with `RptId/EQ = i`; `rawResp i` to the
`rpt_format='RAW'` query. -/
structure Server where
  xmlResp : ℕ → SoapResp
  rawResp : ℕ → SoapResp

/-- The `data` dictionary one `get_report` call builds and appends to
`self.reports` (src/simp.py lines 193-224). -/
structure ReportData where
  simp_report : String
  date : String
  trans_count : ℕ
  rpt_id : ℕ
  status : Bool
  simp_report_fn : String
deriving DecidableEq

/-- `SimpReport.get_rpt_id` (src/simp.py lines 163-171): probe `rpt_id`
with an XML-format query; on a business error return the probed id with
`status=False`, otherwise the bank-assigned id from the response (`none`
models the uncaught `IndexError`/`ValueError` when the id is missing). -/
def get_rpt_id (srv : Server) (rpt_id : ℕ) : Option (ℕ × Bool) :=
  let r := srv.xmlResp rpt_id
  if r.err then some (rpt_id, false)
  else
    match r.rptId with
    | some b => some (b, true)
    | none => none

/-- `SimpReport.get_report` (src/simp.py lines 189-224).  Returns the built
record and the updated `self.reports`; the record is appended
unconditionally, whatever `status` is.  The status of the second (fetch)
request is assigned to a local that is never read. -/
def get_report (srv : Server) (raw : Bool) (date : String)
    (reports : List ReportData) (rpt_id : ℕ) : Option (ReportData × List ReportData) :=
  match get_rpt_id srv rpt_id with
  | none => none
  | some (b, st) =>
    if raw then
      let x := srv.rawResp b
      let p := process_report_file_xml date x.dtls
      let d : ReportData :=
        { simp_report := p.1, date := date, trans_count := regexTrnCount p.1
          rpt_id := b, status := st, simp_report_fn := p.2 }
      some (d, reports ++ [d])
    else
      let x := srv.xmlResp b
      let ns := x.ntrys
      let fn := "ING-SIMP_" ++ date ++ "_" ++ Nat.repr b ++ ".txt"
      if ns.length > 0 then
        match ntrys2simp ns with
        | some s =>
          let d : ReportData :=
            { simp_report := s, date := date, trans_count := ns.length
              rpt_id := b, status := st, simp_report_fn := fn }
          some (d, reports ++ [d])
        | none => none
      else
        let d : ReportData :=
          { simp_report := "", date := date, trans_count := ns.length
            rpt_id := b, status := st, simp_report_fn := fn }
        some (d, reports ++ [d])

/-- The `while report['status'] is True` loop of `get_reports`
(src/simp.py lines 182-184), fuelled: `none` when the run does not finish
within the fuel (or a call raises). -/
def get_reports_loop (srv : Server) (raw : Bool) (date : String) :
    ℕ → List ReportData → ReportData → Option (ReportData × List ReportData)
  | 0, reports, prev =>
    if prev.status = true then none else some (prev, reports)
  | f + 1, reports, prev =>
    if prev.status = true then
      match get_report srv raw date reports (prev.rpt_id + 1) with
      | none => none
      | some (r, rs) => get_reports_loop srv raw date f rs r
    else some (prev, reports)

/-- `SimpReport.get_reports` (src/simp.py lines 174-186): reset
`self.reports`, fetch report 0, then keep fetching `rpt_id + 1` while the
previous status is true.  Returns the final (failed) report together with
the accumulated `self.reports`. -/
def get_reports (srv : Server) (raw : Bool) (date : String) (fuel : ℕ) :
    Option (ReportData × List ReportData) :=
  match get_report srv raw date [] 0 with
  | none => none
  | some (r, rs) => get_reports_loop srv raw date fuel rs r

/-- The probing protocol of a date with the given chain of bank-assigned
report ids: probing the given slot resolves the head id, the following
slots continue the chain, and probing past the last id is a business
error. -/
def ServesFrom (srv : Server) : ℕ → List ℕ → Prop
  | slot, [] => (srv.xmlResp slot).err = true
  | slot, b :: rest =>
    (srv.xmlResp slot).err = false ∧ (srv.xmlResp slot).rptId = some b ∧
      ServesFrom srv (b + 1) rest

/-- The output filter shared by `get`, `save` and `send` (src/simp.py lines
327, 337, 354): `report['status'] is True and report['trans_count'] > 0`. -/
def usable (r : ReportData) : Bool := r.status && decide (0 < r.trans_count)

/-- `SimpReport.get` (src/simp.py lines 323-330): fetch all reports
(RAW format: `get_reports` keeps its `raw=True` default), print the usable
ones, return `True`.  The result is the printed texts plus the returned
flag. -/
def modeGet (srv : Server) (date : String) (fuel : ℕ) : Option (List String × Bool) :=
  match get_reports srv true date fuel with
  | none => none
  | some (_, rs) =>
    some (rs.foldl (fun acc r => if usable r = true then acc ++ [r.simp_report] else acc) [],
      true)

/-- `SimpReport.save` (src/simp.py lines 333-343): write each usable report
to its filename, return `True`.  The result is the written (filename,
content) pairs plus the returned flag. -/
def modeSave (srv : Server) (date : String) (fuel : ℕ) :
    Option (List (String × String) × Bool) :=
  match get_reports srv true date fuel with
  | none => none
  | some (_, rs) =>
    some (rs.foldl (fun acc r =>
      if usable r = true then acc ++ [(r.simp_report_fn, r.simp_report)] else acc) [],
      true)

/-- `SimpReport.send` (src/simp.py lines 346-365): write each usable report
to a file and collect it for attachment; mail is sent iff the collected
list is nonempty; return `True`.  The result is the attached (filename,
content) pairs, whether mail was sent, and the returned flag. -/
def modeSend (srv : Server) (date : String) (fuel : ℕ) :
    Option (List (String × String) × Bool × Bool) :=
  match get_reports srv true date fuel with
  | none => none
  | some (_, rs) =>
    let files := rs.foldl (fun acc r =>
      if usable r = true then acc ++ [(r.simp_report_fn, r.simp_report)] else acc) []
    some (files, decide (0 < files.length), true)

inductive Mode where
  | get
  | save
  | send
deriving DecidableEq

/-- The boolean `result` that `main` receives back from the selected mode
(src/simp.py lines 407-413). -/
def runMode (srv : Server) (date : String) (fuel : ℕ) : Mode → Option Bool
  | .get => (modeGet srv date fuel).map (fun p => p.2)
  | .save => (modeSave srv date fuel).map (fun p => p.2)
  | .send => (modeSend srv date fuel).map (fun p => p.2.2)

/-- The process exit code of `main` (src/simp.py lines 414-416):
`sys.exit(0)` when `result` is truthy, `sys.exit(12)` otherwise; `none`
when the run dies on an uncaught exception instead. -/
def mainExitCode (srv : Server) (date : String) (fuel : ℕ) (m : Mode) : Option ℕ :=
  match runMode srv date fuel m with
  | none => none
  | some true => some 0
  | some false => some 12

/-- Split a character list on commas (the field structure a CSV consumer
reads back from an emitted line). -/
def splitOnComma : List Char → List (List Char)
  | [] => [[]]
  | c :: cs =>
    if c = ',' then [] :: splitOnComma cs
    else
      match splitOnComma cs with
      | [] => [[c]]
      | h :: t => (c :: h) :: t

/-! Concrete fixtures used by witnesses and counterexamples. -/

/-- The single entry of the spec's end-to-end scenario: amount `87.00`,
sign `C`, currency `PLN`, booking date `2021-09-17` (remaining fields from
the sample report embedded in the source's docstring). -/
def ntry87 : Ntry :=
  { txRef := "9720187002780", bookingDate := "2021-09-17", txDate := "2021-09-16"
    trnSrc := "E", opSgn := "C", acctId := "68105001617564000000000004"
    ccy := "PLN", dbtrId := "78116022020000000462640706"
    dbtrNms := [some "LABETSKI STANISLAV", none]
    memo := "Przelew krajowy - NECIOR", amount := 87 }

/-- An entry with amount `0.10`. -/
def ntry01 : Ntry := { ntry87 with amount := 1 / 10 }

/-- An entry with amount `0.20`. -/
def ntry02 : Ntry := { ntry87 with amount := 2 / 10 }

/-- An empty `RptDtls` part (`//RptDtls` matched nothing). -/
def noDtls : RptDtlsResp := { present := false, rptFile := none, rptNm := none }

/-- A business-error response (`//RuleDesc` present). -/
def errResp : SoapResp := { err := true, rptId := none, ntrys := [], dtls := noDtls }

/-- A date with one itemized report: probing slot 0 resolves bank id 5,
whose itemized payload is the single entry `ntry87`; probing slot 6 (and
everything else) is a business error. -/
def srvItem1 : Server :=
  { xmlResp := fun i =>
      if i = 0 then { err := false, rptId := some 5, ntrys := [], dtls := noDtls }
      else if i = 5 then { err := false, rptId := some 5, ntrys := [ntry87], dtls := noDtls }
      else errResp
    rawResp := fun _ => errResp }

/-- A decoded RAW report payload whose summary line reports 1 transaction. -/
def rawText1 : String :=
  "<SIMP2>666,2021-09-17\n</SIMP2>\"il.trn.:1 wart.trn.:87.00\"\n"

/-- A date with two RAW reports: slot 0 resolves bank id 3, slot 4 resolves
bank id 7, slot 8 is a business error; both RAW payloads carry a report
file and name. -/
def srvRaw2 : Server :=
  { xmlResp := fun i =>
      if i = 0 then { err := false, rptId := some 3, ntrys := [], dtls := noDtls }
      else if i = 4 then { err := false, rptId := some 7, ntrys := [], dtls := noDtls }
      else errResp
    rawResp := fun i =>
      if i = 3 then { err := false, rptId := none, ntrys := []
                      dtls := { present := true, rptFile := some rawText1
                                rptNm := some "netforyou_202109171" } }
      else if i = 7 then { err := false, rptId := none, ntrys := []
                           dtls := { present := true, rptFile := some rawText1
                                     rptNm := some "netforyou_202109172" } }
      else errResp }

/-- A date with no reports at all: the very first probe is a business
error. -/
def srvEmpty : Server :=
  { xmlResp := fun _ => errResp, rawResp := fun _ => errResp }

/-- A date whose single report resolves (bank id 5) but carries zero
itemized entries. -/
def srvZero : Server :=
  { xmlResp := fun i =>
      if i = 0 then { err := false, rptId := some 5, ntrys := [], dtls := noDtls }
      else if i = 5 then { err := false, rptId := some 5, ntrys := [], dtls := noDtls }
      else errResp
    rawResp := fun _ => errResp }

/-- A throwaway record used only as a `getD` default in closed statements. -/
def dummyReport : ReportData :=
  { simp_report := "", date := "", trans_count := 0, rpt_id := 0
    status := true, simp_report_fn := "" }

/-- A small parsed document with one namespaced tag, as lxml delivers it. -/
def docW : XmlNode :=
  XmlNode.node "{urn:x}Envelope".data [XmlNode.node "Ntry".data []]

/-!
## Theorems
-/

theorem foldl_simpStep_count (ns : List Ntry) :
    ∀ a : SimpAcc, (ns.foldl simpStep a).tr_count = a.tr_count + ns.length := by
  induction ns with
  | nil => intro a; simp
  | cons n l ih =>
    intro a
    simp only [List.foldl_cons, ih, simpStep, List.length_cons]
    omega

theorem foldl_simpStep_total (ns : List Ntry) :
    ∀ a : SimpAcc, (ns.foldl simpStep a).tr_total =
      ns.foldl (fun t n => floatRound (t + floatRound n.amount)) a.tr_total := by
  induction ns with
  | nil => intro a; rfl
  | cons n l ih =>
    intro a
    simp only [List.foldl_cons, ih, simpStep]

theorem foldl_simpStep_lines (ns : List Ntry) :
    ∀ a : SimpAcc, (ns.foldl simpStep a).lines = a.lines ++ simpLinesSpec ns := by
  induction ns with
  | nil => intro a; simp [simpLinesSpec]
  | cons n l ih =>
    intro a
    simp only [List.foldl_cons, ih, simpStep, simpLinesSpec]
    rw [String.append_assoc]

theorem foldl_simpStep_bd (n : Ntry) (ns : List Ntry) :
    ∀ a : SimpAcc, ((n :: ns).foldl simpStep a).booking_date =
      some (((n :: ns).getLastD n).bookingDate) := by
  induction ns generalizing n with
  | nil => intro a; rfl
  | cons m l ih =>
    intro a
    have h := ih m (simpStep a n)
    simp only [List.foldl_cons] at h ⊢
    rw [h]
    simp only [List.getLastD_cons]

/-- Closed form of `ntrys2simp` on a nonempty entry list: header from the
final entry's booking date, one CSV line per entry, footer with the entry
count and the float total. -/
theorem ntrys2simp_cons (n : Ntry) (ns : List Ntry) :
    ntrys2simp (n :: ns) =
      some ("<SIMP2>666," ++ ((n :: ns).getLastD n).bookingDate ++ "\n" ++
        simpLinesSpec (n :: ns) ++ "</SIMP2>\"il.trn.:" ++
        Nat.repr (n :: ns).length ++ " wart.trn.:" ++
        pyFloatRepr (simpTotal (n :: ns)) ++ "\"\n") := by
  have hbd := foldl_simpStep_bd n ns
    { tr_count := 0, tr_total := 0, booking_date := none, lines := "" }
  have hc := foldl_simpStep_count (n :: ns)
    { tr_count := 0, tr_total := 0, booking_date := none, lines := "" }
  have ht := foldl_simpStep_total (n :: ns)
    { tr_count := 0, tr_total := 0, booking_date := none, lines := "" }
  have hl := foldl_simpStep_lines (n :: ns)
    { tr_count := 0, tr_total := 0, booking_date := none, lines := "" }
  simp only [ntrys2simp, ntrysFold]
  rw [hbd]
  simp only [hc, ht, hl, simpTotal, String.empty_append]
  simp [String.append_assoc]

theorem ntrys2simp_isSome (n : Ntry) (ns : List Ntry) :
    (ntrys2simp (n :: ns)).isSome = true := by
  rw [ntrys2simp_cons]
  rfl

/-- C2: the derived cents amount is `int(float(amount) * 100)`, a
truncation of the binary64 product, not `round(amount * 100)`: at the
amount `0.29` the code yields `28` while `round(0.29 * 100) = 29` (the
float product is `28.999999999999996`); the spec's own reference amount
`87.00` agrees on both sides (`8700`). -/
theorem C2_cents_truncation :
    cammount (29 / 100) = 28 ∧ specRound ((29 / 100 : ℚ) * 100) = 29 ∧
      cammount 87 = 8700 ∧ specRound ((87 : ℚ) * 100) = 8700 :=
  ⟨by decide, by decide, by decide, by decide⟩

/-- C3 counterexample: the footer does not report the unscaled decimal sum
of the amounts.  For two entries with amounts `0.10` and `0.20` the decimal
sum is `0.3` (displayed `0.3`), but the emitted footer reads
`wart.trn.:0.30000000000000004` — the binary64 accumulated total. -/
theorem C3_footer_not_decimal_sum :
    strHasSuf ((ntrys2simp [ntry01, ntry02]).getD "")
        " wart.trn.:0.30000000000000004\"\n" = true ∧
      ntry01.amount + ntry02.amount = 3 / 10 ∧
      pyFloatRepr (floatRound (3 / 10)) = "0.3" ∧
      strHasSuf ((ntrys2simp [ntry01, ntry02]).getD "") " wart.trn.:0.3\"\n" = false :=
  ⟨by decide, by decide, by decide, by decide⟩

/-- C3 (amended): for every nonempty entry sequence `ntrys2simp` yields the
header `<SIMP2>666,<booking date of the final entry>`, one CSV line per
entry, and the footer `</SIMP2>"il.trn.:<count> wart.trn.:<total>"` where
the total is the binary64 float sum of the amounts (not the exact decimal
sum); for the single entry with amount `87.00` and booking date
`2021-09-17` the output begins `<SIMP2>666,2021-09-17` and its final line
is `</SIMP2>"il.trn.:1 wart.trn.:87.0"`. -/
theorem C3_simp_text_shape :
    (∀ (n : Ntry) (ns : List Ntry),
      ntrys2simp (n :: ns) =
        some ("<SIMP2>666," ++ ((n :: ns).getLastD n).bookingDate ++ "\n" ++
          simpLinesSpec (n :: ns) ++ "</SIMP2>\"il.trn.:" ++
          Nat.repr (n :: ns).length ++ " wart.trn.:" ++
          pyFloatRepr (simpTotal (n :: ns)) ++ "\"\n")) ∧
      strHasPre ((ntrys2simp [ntry87]).getD "") "<SIMP2>666,2021-09-17" = true ∧
      strHasSuf ((ntrys2simp [ntry87]).getD "")
        "</SIMP2>\"il.trn.:1 wart.trn.:87.0\"\n" = true :=
  ⟨ntrys2simp_cons, by decide, by decide⟩

/-- C5: a report whose probe succeeds but whose itemized payload has zero
`Ntry` entries is not an error: `get_report` appends a record with
`trans_count = 0`, `status = true` and empty report text. -/
theorem C5_zero_entries_not_error (srv : Server) (date : String)
    (reports : List ReportData) (slot b : ℕ)
    (h1 : (srv.xmlResp slot).err = false) (h2 : (srv.xmlResp slot).rptId = some b)
    (h3 : (srv.xmlResp b).ntrys = []) :
    ∃ d, get_report srv false date reports slot = some (d, reports ++ [d]) ∧
      d.trans_count = 0 ∧ d.status = true ∧ d.simp_report = "" := by
  simp only [get_report, get_rpt_id, h1, h2, h3, if_false, ite_false, Bool.false_eq_true,
    List.length_nil, gt_iff_lt, lt_self_iff_false]
  exact ⟨_, rfl, rfl, rfl, rfl⟩

/-- C5 witness: the concrete zero-entry date `srvZero`. -/
theorem C5_zero_entries_not_error_w :
    ∃ d, get_report srvZero false "2021-09-17" [] 0 = some (d, [] ++ [d]) ∧
      d.trans_count = 0 ∧ d.status = true ∧ d.simp_report = "" :=
  C5_zero_entries_not_error srvZero "2021-09-17" [] 0 5 rfl rfl rfl

/-- C6: a missing payer-name slot (or one with empty text), a missing
`RptFile` payload and a missing `RptNm` name are all soft defaults — empty
string, empty report text, fallback filename — and the transformer never
fails on a nonempty entry list whatever the payer-name slots hold. -/
theorem C6_soft_defaults :
    (∀ (date : String) (r : RptDtlsResp), r.present = false →
      process_report_file_xml date r = ("", "temp_file_" ++ date ++ ".txt")) ∧
    (∀ (date : String) (r : RptDtlsResp), r.rptFile = none →
      (process_report_file_xml date r).1 = "") ∧
    (∀ (date : String) (r : RptDtlsResp), r.rptNm = none →
      (process_report_file_xml date r).2 = "temp_file_" ++ date ++ ".txt") ∧
    (∀ (n : Ntry) (i : ℕ), n.dbtrNms.get? i = none → payerName n i = "") ∧
    (∀ (n : Ntry) (i : ℕ), n.dbtrNms.get? i = some none → payerName n i = "") ∧
    (∀ (n : Ntry) (ns : List Ntry), (ntrys2simp (n :: ns)).isSome = true) := by
  refine ⟨?_, ?_, ?_, ?_, ?_, ?_⟩
  · intro date r h
    simp [process_report_file_xml, h]
  · intro date r h
    cases hp : r.present <;> simp [process_report_file_xml, h, hp]
  · intro date r h
    cases hp : r.present <;> simp [process_report_file_xml, h, hp]
  · intro n i h
    unfold payerName
    rw [h]
    rfl
  · intro n i h
    unfold payerName
    rw [h]
    rfl
  · intro n ns
    exact ntrys2simp_isSome n ns

/-- C6 witness: concrete missing nodes. -/
theorem C6_soft_defaults_w :
    process_report_file_xml "2021-09-17" noDtls = ("", "temp_file_2021-09-17.txt") ∧
      payerName ntry87 5 = "" ∧ payerName ntry87 1 = "" ∧
      (ntrys2simp [ntry87]).isSome = true :=
  ⟨C6_soft_defaults.1 "2021-09-17" noDtls rfl,
    C6_soft_defaults.2.2.2.1 ntry87 5 rfl,
    C6_soft_defaults.2.2.2.2.1 ntry87 1 rfl,
    C6_soft_defaults.2.2.2.2.2 ntry87 []⟩

/-- Whenever the probe resolves, `get_report` builds one record, appends it
to the sequence unconditionally, and gives it the probe's status and the
resolved id. -/
theorem get_report_run (srv : Server) (raw : Bool) (date : String)
    (reports : List ReportData) (slot b : ℕ) (st : Bool)
    (h : get_rpt_id srv slot = some (b, st)) :
    ∃ d, get_report srv raw date reports slot = some (d, reports ++ [d]) ∧
      d.status = st ∧ d.rpt_id = b := by
  cases raw with
  | true =>
    simp only [get_report, h]
    exact ⟨_, rfl, rfl, rfl⟩
  | false =>
    cases hns : (srv.xmlResp b).ntrys with
    | nil =>
      simp only [get_report, h, hns, List.length_nil, gt_iff_lt, lt_self_iff_false,
        if_false, ite_false]
      exact ⟨_, rfl, rfl, rfl⟩
    | cons n l =>
      obtain ⟨s, hs⟩ := Option.isSome_iff_exists.mp (ntrys2simp_isSome n l)
      simp only [get_report, h, hns, hs, List.length_cons, gt_iff_lt, Nat.succ_pos,
        if_true, ite_true]
      exact ⟨_, rfl, rfl, rfl⟩

/-- The pagination loop along a chain of resolvable ids: one record per id
(status `true`), then one final record for the failing probe (status
`false`), all appended in order. -/
theorem loop_chain (srv : Server) (raw : Bool) (date : String) :
    ∀ (ids : List ℕ) (fuel : ℕ) (prev : ReportData) (acc : List ReportData),
      prev.status = true →
      ServesFrom srv (prev.rpt_id + 1) ids →
      ids.length + 1 ≤ fuel →
      ∃ fin recs,
        get_reports_loop srv raw date fuel acc prev = some (fin, acc ++ recs) ∧
        recs.map ReportData.status = List.replicate ids.length true ++ [false] ∧
        (recs.map ReportData.rpt_id).take ids.length = ids ∧
        fin.status = false := by
  intro ids
  induction ids with
  | nil =>
    intro fuel prev acc hst hserve hfuel
    obtain ⟨f, rfl⟩ : ∃ f, fuel = f + 1 := ⟨fuel - 1, by omega⟩
    have herr : (srv.xmlResp (prev.rpt_id + 1)).err = true := hserve
    have hid : get_rpt_id srv (prev.rpt_id + 1) = some (prev.rpt_id + 1, false) := by
      simp [get_rpt_id, herr]
    obtain ⟨d, hd, hdst, hdid⟩ :=
      get_report_run srv raw date acc (prev.rpt_id + 1) (prev.rpt_id + 1) false hid
    refine ⟨d, [d], ?_, by simp [hdst], rfl, hdst⟩
    cases f with
    | zero => simp [get_reports_loop, hst, hd, hdst]
    | succ f2 => simp [get_reports_loop, hst, hd, hdst]
  | cons b rest ih =>
    intro fuel prev acc hst hserve hfuel
    obtain ⟨herr, hrid, hrest⟩ := hserve
    obtain ⟨f, rfl⟩ : ∃ f, fuel = f + 1 := ⟨fuel - 1, by omega⟩
    have hid : get_rpt_id srv (prev.rpt_id + 1) = some (b, true) := by
      simp [get_rpt_id, herr, hrid]
    obtain ⟨d, hd, hdst, hdid⟩ :=
      get_report_run srv raw date acc (prev.rpt_id + 1) b true hid
    obtain ⟨fin, recs, hloop, hmap, htake, hfin⟩ :=
      ih f d (acc ++ [d]) hdst (by rw [hdid]; exact hrest) (by simp at hfuel; omega)
    refine ⟨fin, d :: recs, ?_, ?_, ?_, hfin⟩
    · have hstep : get_reports_loop srv raw date (f + 1) acc prev =
          get_reports_loop srv raw date f (acc ++ [d]) d := by
        simp [get_reports_loop, hst, hd]
      rw [hstep, hloop, List.append_assoc]
      rfl
    · simp [hdst, hmap, List.replicate_succ]
    · simp [hdid, htake]

/-- `get_reports` along a full chain starting from slot 0. -/
theorem get_reports_chain (srv : Server) (raw : Bool) (date : String)
    (ids : List ℕ) (fuel : ℕ)
    (hserve : ServesFrom srv 0 ids) (hfuel : ids.length ≤ fuel) :
    ∃ fin recs, get_reports srv raw date fuel = some (fin, recs) ∧
      recs.length = ids.length + 1 ∧
      recs.map ReportData.status = List.replicate ids.length true ++ [false] ∧
      (recs.map ReportData.rpt_id).take ids.length = ids ∧
      fin.status = false := by
  cases ids with
  | nil =>
    have herr : (srv.xmlResp 0).err = true := hserve
    have hid : get_rpt_id srv 0 = some (0, false) := by simp [get_rpt_id, herr]
    obtain ⟨d, hd, hdst, hdid⟩ := get_report_run srv raw date [] 0 0 false hid
    rw [List.nil_append] at hd
    refine ⟨d, [d], ?_, rfl, by simp [hdst], rfl, hdst⟩
    simp only [get_reports, hd]
    cases fuel with
    | zero => simp [get_reports_loop, hdst]
    | succ f => simp [get_reports_loop, hdst]
  | cons b rest =>
    obtain ⟨herr, hrid, hrest⟩ := hserve
    have hid : get_rpt_id srv 0 = some (b, true) := by simp [get_rpt_id, herr, hrid]
    obtain ⟨d, hd, hdst, hdid⟩ := get_report_run srv raw date [] 0 b true hid
    rw [List.nil_append] at hd
    obtain ⟨fin, recs, hloop, hmap, htake, hfin⟩ :=
      loop_chain srv raw date rest fuel d [d] hdst (by rw [hdid]; exact hrest)
        (by simp at hfuel; omega)
    have hlen : recs.length = rest.length + 1 := by
      have := congrArg List.length hmap
      simpa using this
    refine ⟨fin, d :: recs, ?_, by simp [hlen], ?_, ?_, hfin⟩
    · simp only [get_reports, hd]
      rw [hloop]
      rfl
    · simp [hdst, hmap, List.replicate_succ]
    · simp [hdid, htake]

/-- C1 counterexample: on a date with exactly one itemized report
(`srvItem1`, bank id 5), `get_reports` accumulates 2 records, not 1, and
their statuses are `[true, false]` — the failed final probe is appended. -/
theorem C1_failed_probe_appended :
    ((get_reports srvItem1 false "2021-09-17" 2).map
      (fun p => (p.2.length, p.2.map ReportData.status))) = some (2, [true, false]) := by
  decide

/-- C1 (amended): for a date with N itemized reports the accumulated
sequence has N+1 records — the first N with `status = true` (and the
bank-assigned ids in order), plus one final appended record with
`status = false` for the probe that terminates pagination. -/
theorem C1_pagination_appends_failed_probe (srv : Server) (date : String)
    (ids : List ℕ) (fuel : ℕ)
    (hserve : ServesFrom srv 0 ids) (hfuel : ids.length ≤ fuel) :
    ∃ fin recs, get_reports srv false date fuel = some (fin, recs) ∧
      recs.length = ids.length + 1 ∧
      recs.map ReportData.status = List.replicate ids.length true ++ [false] ∧
      (recs.map ReportData.rpt_id).take ids.length = ids ∧
      fin.status = false :=
  get_reports_chain srv false date ids fuel hserve hfuel

/-- C1 witness: the one-report date `srvItem1`. -/
theorem C1_pagination_appends_failed_probe_w :
    ∃ fin recs, get_reports srvItem1 false "2021-09-17" 1 = some (fin, recs) ∧
      recs.length = 2 ∧
      recs.map ReportData.status = List.replicate 1 true ++ [false] ∧
      (recs.map ReportData.rpt_id).take 1 = [5] ∧
      fin.status = false :=
  C1_pagination_appends_failed_probe srvItem1 "2021-09-17" [5] 1
    ⟨rfl, rfl, rfl⟩ (by decide)

/-- C4 counterexample: in RAW format (`srvRaw2`, two RAW reports at bank
ids 3 and 7) the engine does not stop after one fetch: it accumulates 3
records with statuses `[true, true, false]`, each successful one counting
the transaction of its decoded payload. -/
theorem C4_raw_not_single_fetch :
    ((get_reports srvRaw2 true "2021-09-17" 3).map
      (fun p => (p.2.length, p.2.map ReportData.status, p.2.map ReportData.trans_count)))
      = some (3, [true, true, false], [1, 1, 0]) := by
  decide

/-- C4 (amended): the RAW variant runs the same pagination loop as the
itemized one — for a date with N RAW reports it performs N successful
fetches and stops at the first failed probe, accumulating N+1 records. -/
theorem C4_raw_loops_like_itemized (srv : Server) (date : String)
    (ids : List ℕ) (fuel : ℕ)
    (hserve : ServesFrom srv 0 ids) (hfuel : ids.length ≤ fuel) :
    ∃ fin recs, get_reports srv true date fuel = some (fin, recs) ∧
      recs.length = ids.length + 1 ∧
      recs.map ReportData.status = List.replicate ids.length true ++ [false] ∧
      (recs.map ReportData.rpt_id).take ids.length = ids ∧
      fin.status = false :=
  get_reports_chain srv true date ids fuel hserve hfuel

/-- C4 witness: the two-RAW-report date `srvRaw2`. -/
theorem C4_raw_loops_like_itemized_w :
    ∃ fin recs, get_reports srvRaw2 true "2021-09-17" 2 = some (fin, recs) ∧
      recs.length = 3 ∧
      recs.map ReportData.status = List.replicate 2 true ++ [false] ∧
      (recs.map ReportData.rpt_id).take 2 = [3, 7] ∧
      fin.status = false :=
  C4_raw_loops_like_itemized srvRaw2 "2021-09-17" [3, 7] 2
    ⟨rfl, rfl, rfl, rfl, rfl⟩ (by decide)

/-- The accumulate-if-usable loop of the output modes equals filtering by
`usable` and mapping. -/
theorem foldl_usable_filter {α : Type} (f : ReportData → α) :
    ∀ (rs : List ReportData) (acc : List α),
      rs.foldl (fun acc r => if usable r = true then acc ++ [f r] else acc) acc =
        acc ++ (rs.filter usable).map f := by
  intro rs
  induction rs with
  | nil => intro acc; simp
  | cons r l ih =>
    intro acc
    cases hu : usable r <;>
      simp [List.foldl_cons, List.filter_cons, hu, ih, List.append_assoc]

/-- Whenever the pagination loop returns, the returned final report is the
one whose probe failed. -/
theorem loop_some_status (srv : Server) (raw : Bool) (date : String) :
    ∀ (fuel : ℕ) (acc : List ReportData) (prev fin : ReportData)
      (rs : List ReportData),
      get_reports_loop srv raw date fuel acc prev = some (fin, rs) →
      fin.status = false := by
  intro fuel
  induction fuel with
  | zero =>
    intro acc prev fin rs h
    cases hst : prev.status with
    | true => simp [get_reports_loop, hst] at h
    | false =>
      simp only [get_reports_loop, hst, Bool.false_eq_true, if_false, ite_false,
        Option.some.injEq, Prod.mk.injEq] at h
      rw [← h.1, hst]
  | succ f ih =>
    intro acc prev fin rs h
    cases hst : prev.status with
    | true =>
      simp only [get_reports_loop, hst, if_true, ite_true] at h
      cases hg : get_report srv raw date acc (prev.rpt_id + 1) with
      | none => rw [hg] at h; exact absurd h (by simp)
      | some p =>
        rw [hg] at h
        exact ih p.2 p.1 fin rs h
    | false =>
      simp only [get_reports_loop, hst, Bool.false_eq_true, if_false, ite_false,
        Option.some.injEq, Prod.mk.injEq] at h
      rw [← h.1, hst]

/-- Whenever `get_reports` returns, the returned final report has
`status = false`. -/
theorem get_reports_fin_status (srv : Server) (raw : Bool) (date : String)
    (fuel : ℕ) (fin : ReportData) (rs : List ReportData)
    (h : get_reports srv raw date fuel = some (fin, rs)) : fin.status = false := by
  unfold get_reports at h
  cases hg : get_report srv raw date [] 0 with
  | none => rw [hg] at h; exact absurd h (by simp)
  | some p =>
    rw [hg] at h
    exact loop_some_status srv raw date fuel p.2 p.1 fin rs h

/-- C10: in all three output modes a report is emitted iff its status is
true and its transaction count is positive; the three modes apply the same
filter to the same accumulated sequence, and the final failed-probe record
is never emitted. -/
theorem C10_outputs_filtered_by_usable :
    (∀ (srv : Server) (date : String) (fuel : ℕ),
      modeGet srv date fuel = (get_reports srv true date fuel).map
        (fun p => ((p.2.filter usable).map ReportData.simp_report, true))) ∧
    (∀ (srv : Server) (date : String) (fuel : ℕ),
      modeSave srv date fuel = (get_reports srv true date fuel).map
        (fun p => ((p.2.filter usable).map
          (fun r => (r.simp_report_fn, r.simp_report)), true))) ∧
    (∀ (srv : Server) (date : String) (fuel : ℕ),
      modeSend srv date fuel = (get_reports srv true date fuel).map
        (fun p => ((p.2.filter usable).map
          (fun r => (r.simp_report_fn, r.simp_report)),
          decide (0 < ((p.2.filter usable).map
            (fun r => (r.simp_report_fn, r.simp_report))).length), true))) ∧
    (∀ (rs : List ReportData) (r : ReportData),
      r ∈ rs.filter usable ↔ r ∈ rs ∧ r.status = true ∧ 0 < r.trans_count) ∧
    (∀ (srv : Server) (date : String) (fuel : ℕ) (fin : ReportData)
      (rs : List ReportData),
      get_reports srv true date fuel = some (fin, rs) →
      fin.status = false ∧ fin ∉ rs.filter usable) := by
  refine ⟨?_, ?_, ?_, ?_, ?_⟩
  · intro srv date fuel
    cases h : get_reports srv true date fuel <;>
      simp [modeGet, h, foldl_usable_filter]
  · intro srv date fuel
    cases h : get_reports srv true date fuel <;>
      simp [modeSave, h, foldl_usable_filter]
  · intro srv date fuel
    cases h : get_reports srv true date fuel <;>
      simp [modeSend, h, foldl_usable_filter]
  · intro rs r
    simp only [List.mem_filter, usable, Bool.and_eq_true, decide_eq_true_eq]
  · intro srv date fuel fin rs h
    have hf := get_reports_fin_status srv true date fuel fin rs h
    refine ⟨hf, fun hmem => ?_⟩
    have := (List.mem_filter.mp hmem).2
    rw [usable, hf] at this
    simp at this

/-- C10 witness: the two-RAW-report date; the failed-probe record is in the
sequence but not in the emitted set. -/
theorem C10_outputs_filtered_by_usable_w :
    (((get_reports srvRaw2 true "2021-09-17" 2).getD (dummyReport, [])).1).status = false ∧
      ((get_reports srvRaw2 true "2021-09-17" 2).getD (dummyReport, [])).1 ∉
        (((get_reports srvRaw2 true "2021-09-17" 2).getD (dummyReport, [])).2).filter
          usable :=
  C10_outputs_filtered_by_usable.2.2.2.2 srvRaw2 "2021-09-17" 2
    ((get_reports srvRaw2 true "2021-09-17" 2).getD (dummyReport, [])).1
    ((get_reports srvRaw2 true "2021-09-17" 2).getD (dummyReport, [])).2
    (by decide)

/-- C8: `get`, `save` and `send` all return `True` unconditionally, so
whenever `main` finishes normally it exits 0 — the `sys.exit(12)` branch is
unreachable, and on a date with zero reports (first probe a business error,
nothing emitted) the process still exits 0, not 12. -/
theorem C8_exit_code_always_zero :
    (∀ (srv : Server) (date : String) (fuel : ℕ) (m : Mode),
      mainExitCode srv date fuel m = (runMode srv date fuel m).map (fun _ => 0)) ∧
      mainExitCode srvEmpty "2021-09-17" 1 Mode.get = some 0 ∧
      (modeGet srvEmpty "2021-09-17" 1).map Prod.fst = some [] := by
  refine ⟨?_, by decide, by decide⟩
  intro srv date fuel m
  cases m <;> cases h : get_reports srv true date fuel <;>
    simp [mainExitCode, runMode, modeGet, modeSave, modeSend, h]

theorem pyFind_append (c : Char) :
    ∀ (xs ys : List Char), c ∉ xs → pyFind c (xs ++ c :: ys) = xs.length := by
  intro xs
  induction xs with
  | nil => intro ys _; simp [pyFind]
  | cons x l ih =>
    intro ys h
    have hx : ¬x = c := fun hh => h (by simp [hh])
    have hl : c ∉ l := fun hh => h (List.mem_cons_of_mem _ hh)
    have hr := ih ys hl
    have hstep : pyFind c ((x :: l) ++ c :: ys) =
        if pyFind c (l ++ c :: ys) = -1 then -1 else pyFind c (l ++ c :: ys) + 1 := by
      simp only [List.cons_append, pyFind, if_neg hx]
      rfl
    rw [hstep, hr, if_neg (show ¬((l.length : ℤ) = -1) by omega)]
    simp only [List.length_cons]
    push_cast
    ring

theorem stripNsTag_of_no_brace (t : List Char) (h : '\x7b' ∉ t) :
    stripNsTag t = t := by
  unfold stripNsTag
  rw [if_neg]
  intro hc
  exact h (List.take_subset 1 t (hc ▸ List.mem_singleton.mpr rfl))

/-- On any tag an XML parse can produce, the namespace strip is idempotent. -/
theorem stripNsTag_wf_idem (t : List Char) (h : WfTag t) :
    stripNsTag (stripNsTag t) = stripNsTag t := by
  rcases h with ⟨h1, _⟩ | ⟨u, n, rfl, hu1, hu2, hn1, _⟩
  · rw [stripNsTag_of_no_brace t h1, stripNsTag_of_no_brace t h1]
  · have hfind : pyFind '\x7d' ('\x7b' :: (u ++ '\x7d' :: n)) = (u.length + 1 : ℕ) := by
      have : '\x7d' ∉ '\x7b' :: u := by
        intro hm
        rcases List.mem_cons.mp hm with hm | hm
        · exact absurd hm.symm (by decide)
        · exact hu2 hm
      have h2 := pyFind_append '\x7d' ('\x7b' :: u) n this
      simpa using h2
    have hstrip : stripNsTag ('\x7b' :: (u ++ '\x7d' :: n)) = n := by
      unfold stripNsTag
      rw [if_pos (show List.take 1 ('\x7b' :: (u ++ '\x7d' :: n)) = ['\x7b'] from rfl),
        hfind]
      have htn : ((u.length + 1 : ℕ) + (1 : ℤ)).toNat = u.length + 2 := by omega
      rw [htn]
      show List.drop (u.length + 2) ('\x7b' :: (u ++ '\x7d' :: n)) = n
      have hsplit : '\x7b' :: (u ++ '\x7d' :: n) = ('\x7b' :: u ++ ['\x7d']) ++ n := by
        simp
      rw [hsplit]
      exact List.drop_left' (by simp)
    rw [hstrip, stripNsTag_of_no_brace n hn1]

mutual

theorem rn_idem : ∀ (d : XmlNode), (∀ t ∈ xmlTags d, WfTag t) →
    remove_namespace (remove_namespace d) = remove_namespace d
  | .node t cs, h => by
    have ht : WfTag t := h t (by simp [xmlTags])
    have hcs : ∀ t2 ∈ xmlTagsList cs, WfTag t2 := fun t2 h2 =>
      h t2 (by simp only [xmlTags, List.mem_cons]; exact Or.inr h2)
    show XmlNode.node (stripNsTag (stripNsTag t)) (removeNsList (removeNsList cs)) =
      XmlNode.node (stripNsTag t) (removeNsList cs)
    rw [stripNsTag_wf_idem t ht, rn_idem_list cs hcs]

theorem rn_idem_list : ∀ (ds : List XmlNode), (∀ t ∈ xmlTagsList ds, WfTag t) →
    removeNsList (removeNsList ds) = removeNsList ds
  | [], _ => rfl
  | d :: ds, h => by
    have h1 : ∀ t ∈ xmlTags d, WfTag t := fun t h2 =>
      h t (by simp only [xmlTagsList, List.mem_append]; exact Or.inl h2)
    have h2 : ∀ t ∈ xmlTagsList ds, WfTag t := fun t hh =>
      h t (by simp only [xmlTagsList, List.mem_append]; exact Or.inr hh)
    show remove_namespace (remove_namespace d) :: removeNsList (removeNsList ds) =
      remove_namespace d :: removeNsList ds
    rw [rn_idem d h1, rn_idem_list ds h2]

end

/-- C7: the namespace normalizer is idempotent — on any parsed document
(tags either plain or of the lxml `\x7buri\x7dlocal` shape), applying
`remove_namespace` twice yields the same element tag names as applying it
once. -/
theorem C7_remove_namespace_idempotent (d : XmlNode)
    (h : ∀ t ∈ xmlTags d, WfTag t) :
    xmlTags (remove_namespace (remove_namespace d)) = xmlTags (remove_namespace d) := by
  rw [rn_idem d h]

/-- C7 witness: a concrete namespaced document. -/
theorem C7_remove_namespace_idempotent_w :
    xmlTags (remove_namespace (remove_namespace docW)) = xmlTags (remove_namespace docW) :=
  C7_remove_namespace_idempotent docW (by
    intro t ht
    have hmem : t ∈ ["\x7burn:x\x7dEnvelope".data, "Ntry".data] := ht
    rcases List.mem_cons.mp hmem with h1 | h1
    · subst h1
      exact Or.inr ⟨"urn:x".data, "Envelope".data, by decide, by decide, by decide,
        by decide, by decide⟩
    · rw [List.mem_singleton.mp h1]
      exact Or.inl ⟨by decide, by decide⟩)

theorem splitOnComma_append :
    ∀ (xs ys : List Char), ',' ∉ xs →
      splitOnComma (xs ++ ',' :: ys) = xs :: splitOnComma ys := by
  intro xs
  induction xs with
  | nil => intro ys _; simp [splitOnComma]
  | cons x l ih =>
    intro ys h
    have hx : ¬x = ',' := fun hh => h (by simp [hh])
    have hl : ',' ∉ l := fun hh => h (List.mem_cons_of_mem _ hh)
    have hstep : splitOnComma ((x :: l) ++ ',' :: ys) =
        match splitOnComma (l ++ ',' :: ys) with
        | [] => [[x]]
        | h :: t => (x :: h) :: t := by
      simp only [List.cons_append, splitOnComma, if_neg hx]
      rfl
    rw [hstep, ih ys hl]

/-- Reading back the seventh comma-separated field of a line whose first
seven fields are comma-free. -/
theorem splitOnComma_get6 (f0 f1 f2 f3 f4 f5 f6 rest : List Char)
    (h0 : ',' ∉ f0) (h1 : ',' ∉ f1) (h2 : ',' ∉ f2) (h3 : ',' ∉ f3)
    (h4 : ',' ∉ f4) (h5 : ',' ∉ f5) (h6 : ',' ∉ f6) :
    (splitOnComma (f0 ++ ',' :: (f1 ++ ',' :: (f2 ++ ',' :: (f3 ++ ',' ::
      (f4 ++ ',' :: (f5 ++ ',' :: (f6 ++ ',' :: rest)))))))).get? 6 = some f6 := by
  rw [splitOnComma_append _ _ h0, splitOnComma_append _ _ h1,
    splitOnComma_append _ _ h2, splitOnComma_append _ _ h3,
    splitOnComma_append _ _ h4, splitOnComma_append _ _ h5,
    splitOnComma_append _ _ h6]
  rfl

/-- C9: the reference field written into the CSV line (the seventh
comma-separated field) is the entry's `Ref/TxRef` text with its final
character removed (`[:-1]`), one character shorter than the full
reference. -/
theorem C9_reference_field_truncated (n : Ntry)
    (h0 : ',' ∉ n.acctId.data)
    (h1 : ',' ∉ (toString (cammount n.amount)).data)
    (h2 : ',' ∉ n.opSgn.data) (h3 : ',' ∉ n.ccy.data)
    (h4 : ',' ∉ n.bookingDate.data) (h6 : ',' ∉ n.txRef.data) :
    (splitOnComma (simpLine n).data).get? 6 = some (pyDropLast n.txRef).data ∧
      (n.txRef ≠ "" → (pyDropLast n.txRef).data.length + 1 = n.txRef.data.length) := by
  constructor
  · have h6d : ',' ∉ (pyDropLast n.txRef).data := fun hm =>
      h6 (List.dropLast_subset _ hm)
    have hdata : (simpLine n).data =
        n.acctId.data ++ ',' :: ((toString (cammount n.amount)).data ++ ',' ::
          (n.opSgn.data ++ ',' :: (n.ccy.data ++ ',' :: (n.bookingDate.data ++ ',' ::
            (['U', 'Z', 'N'] ++ ',' :: ((pyDropLast n.txRef).data ++ ',' ::
              (',' :: '"' :: (n.dbtrId.data ++ ('"' :: ',' :: '"' ::
                ((payerName n 0).data ++ ('"' :: ',' :: '"' ::
                  ((payerName n 1).data ++ ('"' :: ',' :: '"' ::
                    ((payerName n 2).data ++ ('"' :: ',' :: '"' ::
                      ((payerName n 3).data ++ ('"' :: ',' :: '"' ::
                        (n.memo.data ++ ('"' :: ',' :: '"' :: '"' :: ',' ::
                          '"' :: '"' :: ',' :: '"' :: '"' :: ',' ::
                          (n.trnSrc.data ++ (',' :: ',' ::
                            (n.txDate.data ++ ['\n'])))))))))))))))))))))) := by
      simp only [simpLine, String.data_append, List.cons_append, List.nil_append,
        List.append_assoc]
    rw [hdata]
    exact splitOnComma_get6 _ _ _ _ _ _ _ _ h0 h1 h2 h3 h4 (by decide) h6d
  · intro hne
    have hd : n.txRef.data ≠ [] := by
      intro hh
      exact hne (String.ext hh)
    have hlen : n.txRef.data.length ≠ 0 := fun hz => hd (List.length_eq_zero.mp hz)
    show n.txRef.data.dropLast.length + 1 = n.txRef.data.length
    rw [List.length_dropLast]
    omega

/-- C9 witness: the reference of `ntry87` is written truncated. -/
theorem C9_reference_field_truncated_w :
    (splitOnComma (simpLine ntry87).data).get? 6 = some (pyDropLast ntry87.txRef).data ∧
      (pyDropLast ntry87.txRef).data.length + 1 = ntry87.txRef.data.length := by
  have h := C9_reference_field_truncated ntry87 (by decide) (by decide) (by decide)
    (by decide) (by decide) (by decide)
  exact ⟨h.1, h.2 (by decide)⟩

end Simp2Proof

